import Mathlib

/-!
# manyrows-goclient: pagination, option merging and request dispatch

A shallow embedding of the Go package `manyrowsclient` (files `paging.go`,
`core.go`, `client.go`) together with theorems about it.

Conventions of the embedding

* Go `int` is the 64-bit two's-complement integer type.  Values are carried as
  `Int`; the only arithmetic operation of the package that can overflow (the
  multiplication in `GetOffset`) is wrapped explicitly with `wrapInt`.
* Go `string` is carried as `String`.
* A Go pointer or interface that may be `nil` is an `Option`.
* Functions of the Go standard library (`net/http`, `encoding/json`,
  `compress/gzip`) are not part of the package; they are parameters: the fields
  of `Env`, a `JSONDecoder` per target type, and the argument `Marshal` of `Query`.
-/

namespace manyrowsclient

/-! ## paging.go -/

/-- The width in bits of Go's `int` on the 64-bit platforms. -/
def intBits : Nat := 64

/-- Two's-complement wraparound of a mathematical integer into the range of Go's `int`. -/
def wrapInt (x : Int) : Int :=
  (x + 2 ^ (intBits - 1)) % 2 ^ intBits - 2 ^ (intBits - 1)

/-- The largest value of Go's `int`. -/
def maxInt : Int := 2 ^ (intBits - 1) - 1

/-- The smallest value of Go's `int`. -/
def minInt : Int := -(2 ^ (intBits - 1))

def defaultPageSize : Int := 50

def firstPage : Int := 0

def maxPageSize : Int := 100

def minPageSize : Int := 1

structure PageRequest where
  Page : Int
  Size : Int
deriving DecidableEq, Repr

structure PageResource where
  toPageRequest : PageRequest
  Total : Int
deriving DecidableEq, Repr

def PageRequest.GetPage (p : PageRequest) : Int :=
  if p.Page < firstPage then
    firstPage
  else
    p.Page

def PageRequest.GetSize (p : PageRequest) : Int :=
  if p.Size < minPageSize ∨ p.Size > maxPageSize then
    defaultPageSize
  else
    p.Size

def PageRequest.GetLimit (p : PageRequest) : Int :=
  p.GetSize

def PageRequest.GetOffset (p : PageRequest) : Int :=
  wrapInt (p.GetPage * p.GetSize)

/-! ## core.go -/

/-- A value of Go's `error` interface, carried by the text of its `Error()` method. -/
structure GoError where
  msg : String
deriving DecidableEq, Repr

/-- A dynamic value held in a Go `any` (`interface{}`).  `float64` values are carried by their
IEEE-754 bit pattern and are never computed with; `chan` stands for a value of a channel type. -/
inductive GoAny where
  | nil
  | bool (b : Bool)
  | float64 (bits : Nat)
  | string (s : String)
  | slice (xs : List GoAny)
  | map (kvs : List (String × GoAny))
  | chan

/-- A `uuid.UUID`, a 128-bit value. -/
structure UUID where
  val : Nat
deriving DecidableEq, Repr

/-- A `time.Time`, carried by its Unix time in nanoseconds. -/
structure Time where
  unixNano : Int
deriving DecidableEq, Repr

structure Entity where
  ID : UUID := ⟨0⟩
  CollectionItemID : Option UUID := none
  CreatedAt : Option Time := none
  UpdatedAt : Option Time := none
  Status : Int := 0
  Attributes : List (String × GoAny) := []

structure clientOptions where
  baseURL : String := ""
  apiKey : String := ""
deriving DecidableEq, Repr

def clientOptions.SetBaseURL (q : clientOptions) (baseURL : String) : clientOptions :=
  { q with baseURL := baseURL }

def clientOptions.SetAPIKey (q : clientOptions) (apiKey : String) : clientOptions :=
  { q with apiKey := apiKey }

structure Filter where
  AttributeKey : String := ""
  Value : GoAny := GoAny.nil

structure RelFilter where
  RelDefID : UUID := ⟨0⟩
  EntityID : UUID := ⟨0⟩
deriving DecidableEq, Repr

structure QueryRequest where
  toClientOptions : clientOptions := {}
  toPageRequest : PageRequest := ⟨0, 0⟩
  Search : String := ""
  «Sort» : String := ""
  SortDirection : String := ""
  Status : Int := 0
  Filters : List Filter := []
  ExpandSubEntities : Bool := false
  RelFilter : Option RelFilter := none
  CollectionParentEntityId : UUID := ⟨0⟩

structure QueryResponse where
  toPageResource : PageResource := ⟨⟨0, 0⟩, 0⟩
  Items : List Entity := []

structure ErrorInfo where
  Field : String := ""
  Extra : GoAny := GoAny.nil
  Message : String := ""
  HttpCode : Int := 0
  Reason : String := ""

/-! ## The standard library as seen by client.go -/

/-- A `time.Duration` of one second, in nanoseconds. -/
def second : Int := 1000000000

/-- The fields of `http.Transport` that the package sets. -/
structure Transport where
  TLSHandshakeTimeout : Int := 0
deriving DecidableEq, Repr

/-- The fields of `http.Client` that the package sets; two clients are compared field by field,
as the package's tests compare them. -/
structure HttpClient where
  Timeout : Int := 0
  Transport : Option Transport := none
deriving DecidableEq, Repr

/-- An `http.Header`: the values set so far, one per key.  The renaming of keys to their
canonical capitalisation is not modelled. -/
abbrev Header := List (String × String)

/-- The method `Header.Set`: the value replaces whatever was stored under the key. -/
def Header.Set (h : Header) (key value : String) : Header :=
  h.filter (fun kv => kv.1 != key) ++ [(key, value)]

/-- The method `Header.Get`: the value stored under the key, or the empty string. -/
def Header.Get (h : Header) (key : String) : String :=
  match h.find? (fun kv => kv.1 == key) with
  | some kv => kv.2
  | none => ""

/-- An `http.Request`: method, URL as given to `http.NewRequest`, body (`none` for a nil
reader) and header. -/
structure Request where
  Method : String
  URL : String
  Body : Option (List UInt8)
  Header : Header
deriving DecidableEq, Repr

/-- An `http.Response`: status code, header and the bytes of the body. -/
structure Response where
  StatusCode : Int
  Header : Header := []
  Body : List UInt8 := []
deriving DecidableEq, Repr

/-- An `io.Reader` over a response body: the body itself, or a `gzip.Reader` wrapped around it. -/
inductive Reader where
  | body (bytes : List UInt8)
  | gzip (bytes : List UInt8)
deriving DecidableEq, Repr

/-- The calls into `net/http` and `compress/gzip` made by `doRequest` and `extractJSON`.
* `NewRequestError method url` is the error of `http.NewRequest(method, url, body)`, if any
  (an invalid method or a URL that does not parse);
* `Do h rq` is the result of `h.Do(rq)`: a transport error or the response;
* `gzipNewReader bytes` is the error of `gzip.NewReader` on a body, if any. -/
structure Env where
  NewRequestError : String → String → Option GoError
  Do : HttpClient → Request → Except GoError Response
  gzipNewReader : List UInt8 → Option GoError

/-- The call `json.NewDecoder(reader).Decode(target)` for targets of type `β`: the target after
the call (the decoder may have written to it even when it fails) and the error, if any. -/
abbrev JSONDecoder (β : Type) := Reader → β → β × Option GoError

/-- The function `http.NewRequest`: an error, or a request with the given method, URL and body
and an empty header. -/
def NewRequest (env : Env) (method url : String) (body : Option (List UInt8)) :
    Except GoError Request :=
  match env.NewRequestError method url with
  | some err => Except.error err
  | none => Except.ok { Method := method, URL := url, Body := body, Header := [] }

/-- The function `unicode.IsSpace`: the code points with Unicode's White_Space property. -/
def IsSpace (r : Char) : Bool :=
  let n := r.toNat
  if n ≤ 0xFF then
    n == 0x09 || n == 0x0A || n == 0x0B || n == 0x0C || n == 0x0D || n == 0x20 ||
      n == 0x85 || n == 0xA0
  else
    n == 0x1680 || (0x2000 ≤ n && n ≤ 0x200A) || n == 0x2028 || n == 0x2029 ||
      n == 0x202F || n == 0x205F || n == 0x3000

/-- The function `strings.TrimSpace`: the string without its leading and trailing white space. -/
def TrimSpace (s : String) : String :=
  ⟨((s.data.dropWhile IsSpace).reverse.dropWhile IsSpace).reverse⟩

/-- The call `fmt.Errorf(format + "%d", n)` for a format ending in its only verb. -/
def Errorf (text : String) (n : Int) : GoError :=
  ⟨text ++ toString n⟩

/-! ## client.go -/

def apiVersion : String := "v1"

structure Client where
  baseURL : String := ""
  apiKey : String := ""
  httpClient : Option HttpClient := none
  acceptGzip : Bool := false
deriving DecidableEq, Repr

def defaultClient : HttpClient :=
  let transport : Transport := { TLSHandshakeTimeout := 10 * second }
  let client : HttpClient := { Timeout := second * 30, Transport := some transport }
  client

/-- An option is a function on the client under construction; the result is the client it
leaves behind. -/
def NewClient (baseURL apiKey : String) (options : List (Client → Client)) : Option Client :=
  let baseURL := TrimSpace baseURL
  let client : Client := { baseURL := baseURL, apiKey := apiKey }
  let client := options.foldl (fun client option => option client) client
  let client :=
    if client.httpClient = none then
      { client with httpClient := some defaultClient }
    else
      client
  some client

def WithHTTPClient (httpClient : Option HttpClient) : Client → Client :=
  fun client => { client with httpClient := httpClient }

def WithAcceptGzip : Client → Client :=
  fun client => { client with acceptGzip := true }

def Client.GetHttpClient (client : Client) : Option HttpClient :=
  client.httpClient

/-- The result is paired with the receiver as the call leaves it. -/
def Client.getOptions (client : Client) (opts : clientOptions) : clientOptions × Client :=
  let baseURL := client.baseURL
  let apiKey := client.apiKey
  let baseURL := if opts.baseURL ≠ "" then opts.baseURL else baseURL
  let apiKey := if opts.apiKey ≠ "" then opts.apiKey else apiKey
  ({ baseURL := baseURL, apiKey := apiKey }, client)

def extractJSON {β : Type} (env : Env) (Decode : JSONDecoder β) (gzipped : Bool)
    (resp : Response) (respObj : β) : β × Option GoError :=
  if gzipped then
    match env.gzipNewReader resp.Body with
    | some err => (respObj, some err)
    | none => Decode (Reader.gzip resp.Body) respObj
  else
    Decode (Reader.body resp.Body) respObj

/-- What a call of `doRequest` leaves behind: the three returned values, the caller's result
container after the call, and the requests handed to the HTTP client. -/
structure Outcome (α : Type) where
  resp : Option Response
  err : Option GoError
  errInfo : Option ErrorInfo
  respObj : Option α
  sent : List Request

/-- The result `none` is the run-time panic of calling `Do` on a nil `*http.Client`. -/
def Client.doRequest {α : Type} (env : Env) (decodeErrorInfo : JSONDecoder ErrorInfo)
    (decodeResult : JSONDecoder α) (client : Client) (method url : String)
    (body : Option (List UInt8)) (apiKey : String) (respObj : Option α) : Option (Outcome α) :=
  match NewRequest env method url body with
  | Except.error err => some ⟨none, some err, none, respObj, []⟩
  | Except.ok rq =>
    let errInfo : ErrorInfo := {}
    let rq := { rq with Header := rq.Header.Set "ManyRowsAuthToken" apiKey }
    let rq := { rq with Header := rq.Header.Set "Content-Type" "application/json" }
    let rq :=
      if client.acceptGzip then
        { rq with Header := rq.Header.Set "Accept-Encoding" "gzip, deflate" }
      else
        rq
    match client.httpClient with
    | none => none
    | some httpClient =>
      match env.Do httpClient rq with
      | Except.error err => some ⟨none, some err, some errInfo, respObj, [rq]⟩
      | Except.ok resp =>
        if resp.StatusCode ≥ 400 ∧ resp.StatusCode < 500 then
          match extractJSON env decodeErrorInfo client.acceptGzip resp errInfo with
          | (_, some err) => some ⟨some resp, some err, none, respObj, [rq]⟩
          | (errInfo, none) =>
            let errInfo := { errInfo with HttpCode := resp.StatusCode }
            some ⟨some resp, some (Errorf "status code was " resp.StatusCode), some errInfo,
              respObj, [rq]⟩
        else if resp.StatusCode ≥ 500 ∨ resp.StatusCode < 200 then
          let errInfo := { errInfo with HttpCode := resp.StatusCode }
          some ⟨some resp,
            some (Errorf "unexpected server error: status code was " resp.StatusCode),
            some errInfo, respObj, [rq]⟩
        else
          match respObj with
          | none => some ⟨some resp, none, none, none, [rq]⟩
          | some obj =>
            match extractJSON env decodeResult client.acceptGzip resp obj with
            | (obj, some err) => some ⟨some resp, some err, none, some obj, [rq]⟩
            | (obj, none) => some ⟨some resp, none, none, some obj, [rq]⟩

/-- What a call of `Query` leaves behind: the two returned values and the requests handed to
the HTTP client. -/
structure QueryOutcome where
  res : Option QueryResponse
  err : Option GoError
  sent : List Request

/-- The argument `Marshal` is `json.Marshal` on query requests.  The result `none` is the
panic of `doRequest`. -/
def Client.Query (env : Env) (decodeErrorInfo : JSONDecoder ErrorInfo)
    (decodeResult : JSONDecoder QueryResponse)
    (Marshal : QueryRequest → Except GoError (List UInt8))
    (client : Client) (projectPath kindPath : String) (req : QueryRequest) :
    Option QueryOutcome :=
  let options := (client.getOptions req.toClientOptions).1
  let u := options.baseURL ++ "/" ++ apiVersion ++ "/" ++ projectPath ++ "/entities/" ++
    kindPath ++ "/query"
  match Marshal req with
  | Except.error err => some ⟨none, some err, []⟩
  | Except.ok payload =>
    let res : QueryResponse := {}
    match client.doRequest env decodeErrorInfo decodeResult "POST" u (some payload)
        options.apiKey (some res) with
    | none => none
    | some o =>
      match o.err with
      | some err => some ⟨none, some err, o.sent⟩
      | none => some ⟨o.respObj, none, o.sent⟩

/-! ## Notions used in the statements -/

/-- The header of the request that `doRequest` hands to the HTTP client. -/
def requestHeader (acceptGzip : Bool) (apiKey : String) : Header :=
  [("ManyRowsAuthToken", apiKey), ("Content-Type", "application/json")] ++
    (if acceptGzip then [("Accept-Encoding", "gzip, deflate")] else [])

/-- The request that `doRequest` hands to the HTTP client. -/
def requestSent (client : Client) (method url : String) (body : Option (List UInt8))
    (apiKey : String) : Request :=
  { Method := method, URL := url, Body := body, Header := requestHeader client.acceptGzip apiKey }

/-- An environment for examples: every request is well formed, the HTTP client gives the same
answer to every request, and every body passes the gzip header check. -/
def answering (answer : Except GoError Response) : Env :=
  { NewRequestError := fun _ _ => none, Do := fun _ _ => answer, gzipNewReader := fun _ => none }

/-- A JSON decoder for examples that reads a document without members: the target is left as
it was and there is no error. -/
def decodeEmptyObject {β : Type} : JSONDecoder β :=
  fun _ target => (target, none)

/-- A JSON decoder for examples that finds no document at all and reports `EOF`. -/
def decodeEOF {β : Type} : JSONDecoder β :=
  fun _ target => (target, some ⟨"EOF"⟩)

/-- A JSON decoder for examples that reads an error document with the members `message` and
`httpCode`. -/
def decodeNotFound : JSONDecoder ErrorInfo :=
  fun _ target => ({ target with Message := "not found", HttpCode := 7 }, none)

/-- Whether the bit pattern of a `float64` is a NaN or an infinity. -/
def float64NotFinite (bits : Nat) : Bool :=
  (bits / 2 ^ 52) % 2 ^ 11 == 2047

/-- A stand-in for `json.Marshal` in examples.  As `encoding/json` does, it rejects a value that
is a `float64` NaN or infinity or a channel; the bytes it returns otherwise are a placeholder
for the encoded request. -/
def marshalForExamples (req : QueryRequest) : Except GoError (List UInt8) :=
  if req.Filters.any (fun f =>
      match f.Value with
      | GoAny.float64 bits => float64NotFinite bits
      | GoAny.chan => true
      | _ => false) then
    Except.error ⟨"json: unsupported value"⟩
  else
    Except.ok [123, 125]

/-- A client as `NewClient "https://api.example" "key"` builds it. -/
def exampleClient : Client :=
  { baseURL := "https://api.example", apiKey := "key", httpClient := some defaultClient,
    acceptGzip := false }

/-- A client as `NewClient "https://api.example" "key" [WithAcceptGzip]` builds it. -/
def gzipClient : Client :=
  { baseURL := "https://api.example", apiKey := "key", httpClient := some defaultClient,
    acceptGzip := true }

/-- A stand-in for `gzip.NewReader` in examples.  As `compress/gzip` does, it rejects a body
that does not begin with the bytes 1f 8b 08 of a gzip member. -/
def gzipHeaderError (bytes : List UInt8) : Option GoError :=
  if bytes.take 3 = [31, 139, 8] then none else some ⟨"gzip: invalid header"⟩

/-- An environment for examples like `answering`, but with the gzip header check of
`gzipHeaderError`. -/
def checkingGzip (answer : Except GoError Response) : Env :=
  { NewRequestError := fun _ _ => none, Do := fun _ _ => answer,
    gzipNewReader := gzipHeaderError }

/-- The bytes of a plain JSON error document with the members `message` ("not found") and
`httpCode` (7), as `decodeNotFound` reads it. -/
def notFoundBody : List UInt8 :=
  [123, 34, 109, 101, 115, 115, 97, 103, 101, 34, 58, 34, 110, 111, 116, 32, 102, 111, 117,
    110, 100, 34, 44, 34, 104, 116, 116, 112, 67, 111, 100, 101, 34, 58, 55, 125]

/-- The document of `notFoundBody` compressed as one gzip member. -/
def notFoundBodyGzip : List UInt8 :=
  [31, 139, 8, 0, 0, 0, 0, 0, 2, 3, 171, 86, 202, 77, 45, 46, 78, 76, 79, 85, 178, 82, 202,
    203, 47, 81, 72, 203, 47, 205, 75, 81, 210, 81, 202, 40, 41, 41, 112, 206, 79, 1, 10, 155,
    215, 2, 0, 126, 237, 131, 75, 36, 0, 0, 0]

/-! ## Pagination -/

theorem wrapInt_of_range (x : Int) (hlo : minInt ≤ x) (hhi : x ≤ maxInt) : wrapInt x = x := by
  simp only [minInt, maxInt, intBits] at hlo hhi
  simp only [wrapInt, intBits]
  norm_num at hlo hhi ⊢
  omega

theorem GetSize_bounds (p : PageRequest) : 1 ≤ p.GetSize ∧ p.GetSize ≤ 100 := by
  unfold PageRequest.GetSize minPageSize maxPageSize defaultPageSize
  split <;> omega

theorem GetPage_nonneg (p : PageRequest) : 0 ≤ p.GetPage := by
  unfold PageRequest.GetPage firstPage
  split <;> omega

/-- C1: `GetSize` is 50 when `Size` is below 1 or above 100 (so also for 0 and for negative
sizes) and is `Size` itself when `1 ≤ Size ≤ 100`; the result always lies in `[1, 100]`, and
`GetLimit` returns the same value. -/
theorem GetSize_spec (p : PageRequest) :
    ((p.Size < 1 ∨ p.Size > 100) → p.GetSize = 50) ∧
    ((1 ≤ p.Size ∧ p.Size ≤ 100) → p.GetSize = p.Size) ∧
    (1 ≤ p.GetSize ∧ p.GetSize ≤ 100) ∧
    p.GetLimit = p.GetSize := by
  refine ⟨?_, ?_, GetSize_bounds p, rfl⟩
  · intro h
    unfold PageRequest.GetSize minPageSize maxPageSize defaultPageSize
    rw [if_pos h]
  · intro h
    unfold PageRequest.GetSize minPageSize maxPageSize defaultPageSize
    rw [if_neg (by omega)]

theorem GetSize_spec_witness :
    (PageRequest.mk 3 0).GetSize = 50 ∧ (PageRequest.mk 3 (-7)).GetSize = 50 ∧
    (PageRequest.mk 3 101).GetSize = 50 ∧ (PageRequest.mk 3 100).GetSize = 100 ∧
    (PageRequest.mk 3 1).GetSize = 1 :=
  ⟨(GetSize_spec ⟨3, 0⟩).1 (by decide), (GetSize_spec ⟨3, -7⟩).1 (by decide),
    (GetSize_spec ⟨3, 101⟩).1 (by decide), (GetSize_spec ⟨3, 100⟩).2.1 (by decide),
    (GetSize_spec ⟨3, 1⟩).2.1 (by decide)⟩

/-- C2: `GetPage` is 0 when `Page` is negative and `Page` itself otherwise, that is
`max Page 0`; it is never negative and no upper bound is applied. -/
theorem GetPage_spec (p : PageRequest) :
    (p.Page < 0 → p.GetPage = 0) ∧
    (0 ≤ p.Page → p.GetPage = p.Page) ∧
    p.GetPage = max p.Page 0 ∧
    0 ≤ p.GetPage := by
  refine ⟨?_, ?_, ?_, GetPage_nonneg p⟩
  · intro h
    unfold PageRequest.GetPage firstPage
    rw [if_pos h]
  · intro h
    unfold PageRequest.GetPage firstPage
    rw [if_neg (by omega)]
  · unfold PageRequest.GetPage firstPage
    split <;> omega

theorem GetPage_spec_witness :
    (PageRequest.mk (-4) 10).GetPage = 0 ∧
    (PageRequest.mk 9223372036854775807 10).GetPage = 9223372036854775807 :=
  ⟨(GetPage_spec ⟨-4, 10⟩).1 (by decide),
    (GetPage_spec ⟨9223372036854775807, 10⟩).2.1 (by decide)⟩

/-- C3: `GetOffset` is the product, in Go's 64-bit `int`, of `GetPage` and `GetSize`.  It is 0
whenever `Page ≤ 0`.  For `0 ≤ Page ≤ 92233720368547758`, which is `maxInt / 100`, it is the
exact integer product `max Page 0 * GetSize`: nothing wraps around, the value is non-negative,
fits an `int`, and is a multiple of `GetSize`. -/
theorem GetOffset_spec (p : PageRequest) :
    p.GetOffset = wrapInt (p.GetPage * p.GetSize) ∧
    (p.Page ≤ 0 → p.GetOffset = 0) ∧
    (92233720368547758 : Int) = maxInt / 100 ∧
    (0 ≤ p.Page → p.Page ≤ 92233720368547758 →
      p.GetOffset = max p.Page 0 * p.GetSize ∧ 0 ≤ p.GetOffset ∧ p.GetOffset ≤ maxInt ∧
        p.GetSize ∣ p.GetOffset) := by
  have hs := GetSize_bounds p
  refine ⟨rfl, ?_, by simp only [maxInt, intBits]; norm_num, ?_⟩
  · intro h
    have hp : p.GetPage = 0 := by
      unfold PageRequest.GetPage firstPage
      split <;> omega
    unfold PageRequest.GetOffset
    rw [hp, Int.zero_mul]
    exact wrapInt_of_range 0 (by simp only [minInt, intBits]; norm_num)
      (by simp only [maxInt, intBits]; norm_num)
  · intro h0 h1
    have hp : p.GetPage = p.Page := by
      unfold PageRequest.GetPage firstPage
      rw [if_neg (by omega)]
    have hm : max p.Page 0 = p.Page := max_eq_left h0
    have hlo : 0 ≤ p.Page * p.GetSize := mul_nonneg h0 (by omega)
    have hhi : p.Page * p.GetSize ≤ 92233720368547758 * 100 :=
      mul_le_mul h1 hs.2 (by omega) (by norm_num)
    have hmax : p.Page * p.GetSize ≤ maxInt := by
      simp only [maxInt, intBits]
      norm_num at hhi ⊢
      omega
    have hw : p.GetOffset = p.Page * p.GetSize := by
      unfold PageRequest.GetOffset
      rw [hp]
      exact wrapInt_of_range _ (by simp only [minInt, intBits]; norm_num; omega) hmax
    rw [hw, hm]
    exact ⟨rfl, hlo, hmax, Dvd.intro_left _ rfl⟩

theorem GetOffset_spec_witness :
    (PageRequest.mk (-3) 20).GetOffset = 0 ∧
    (PageRequest.mk 92233720368547758 100).GetOffset =
      max 92233720368547758 0 * (PageRequest.mk 92233720368547758 100).GetSize :=
  ⟨(GetOffset_spec ⟨-3, 20⟩).2.1 (by decide),
    ((GetOffset_spec ⟨92233720368547758, 100⟩).2.2.2 (by decide) (by decide)).1⟩

/-- The bound of `GetOffset_spec` is sharp: one page further, with the largest page size, the
product no longer fits and the offset comes out negative. -/
theorem GetOffset_wraps_beyond_bound :
    (PageRequest.mk 92233720368547759 100).GetOffset = -9223372036854775716 := by
  decide

/-! ## Option merging -/

/-- C4: `getOptions` decides each field on its own: the resulting base URL is the per-call one
when that is non-empty and the client's otherwise, the resulting API key is the per-call one
when that is non-empty and the client's otherwise; the client is left as it was. -/
theorem getOptions_spec (c : Client) (o : clientOptions) :
    (o.baseURL ≠ "" → (c.getOptions o).1.baseURL = o.baseURL) ∧
    (o.baseURL = "" → (c.getOptions o).1.baseURL = c.baseURL) ∧
    (o.apiKey ≠ "" → (c.getOptions o).1.apiKey = o.apiKey) ∧
    (o.apiKey = "" → (c.getOptions o).1.apiKey = c.apiKey) ∧
    (c.getOptions o).2 = c := by
  refine ⟨?_, ?_, ?_, ?_, rfl⟩
  · intro h
    simp only [Client.getOptions, if_pos h]
  · intro h
    simp only [Client.getOptions, h, ne_eq, not_true_eq_false, if_false]
  · intro h
    simp only [Client.getOptions, if_pos h]
  · intro h
    simp only [Client.getOptions, h, ne_eq, not_true_eq_false, if_false]

theorem getOptions_spec_witness :
    ((Client.mk "bbb" "aaa" none false).getOptions ⟨"b", ""⟩).1.baseURL = "b" ∧
    ((Client.mk "bbb" "aaa" none false).getOptions ⟨"b", ""⟩).1.apiKey = "aaa" ∧
    ((Client.mk "bbb" "aaa" none false).getOptions ⟨"", "a"⟩).1.baseURL = "bbb" ∧
    ((Client.mk "bbb" "aaa" none false).getOptions ⟨"", "a"⟩).1.apiKey = "a" :=
  ⟨(getOptions_spec ⟨"bbb", "aaa", none, false⟩ ⟨"b", ""⟩).1 (by decide),
    (getOptions_spec ⟨"bbb", "aaa", none, false⟩ ⟨"b", ""⟩).2.2.2.1 rfl,
    (getOptions_spec ⟨"bbb", "aaa", none, false⟩ ⟨"", "a"⟩).2.1 rfl,
    (getOptions_spec ⟨"bbb", "aaa", none, false⟩ ⟨"", "a"⟩).2.2.1 (by decide)⟩

/-! ## Request dispatch -/

theorem requestSent_eq (client : Client) (method url : String) (body : Option (List UInt8))
    (apiKey : String) :
    (if client.acceptGzip then
      ({ Method := method, URL := url, Body := body,
         Header := Header.Set (Header.Set (Header.Set [] "ManyRowsAuthToken" apiKey)
           "Content-Type" "application/json") "Accept-Encoding" "gzip, deflate" } : Request)
    else
      { Method := method, URL := url, Body := body,
        Header := Header.Set (Header.Set [] "ManyRowsAuthToken" apiKey)
          "Content-Type" "application/json" }) = requestSent client method url body apiKey := by
  have h1 : ("ManyRowsAuthToken" != "Content-Type") = true := by decide
  have h2 : ("ManyRowsAuthToken" != "Accept-Encoding") = true := by decide
  have h3 : ("Content-Type" != "Accept-Encoding") = true := by decide
  cases hg : client.acceptGzip <;>
    simp [requestSent, requestHeader, Header.Set, hg, h1, h2, h3, List.filter]

/-- Once the request is well formed, the HTTP client is there and a response has come back,
`doRequest` is the classification of that response. -/
theorem doRequest_received {α : Type} (env : Env) (dE : JSONDecoder ErrorInfo)
    (dR : JSONDecoder α) (client : Client) (method url : String) (body : Option (List UInt8))
    (apiKey : String) (respObj : Option α) (h : HttpClient) (resp : Response)
    (hnew : env.NewRequestError method url = none) (hc : client.httpClient = some h)
    (hdo : env.Do h (requestSent client method url body apiKey) = Except.ok resp) :
    client.doRequest env dE dR method url body apiKey respObj =
      if resp.StatusCode ≥ 400 ∧ resp.StatusCode < 500 then
        match extractJSON env dE client.acceptGzip resp ({} : ErrorInfo) with
        | (_, some err) =>
          some ⟨some resp, some err, none, respObj, [requestSent client method url body apiKey]⟩
        | (errInfo, none) =>
          some ⟨some resp, some (Errorf "status code was " resp.StatusCode),
            some { errInfo with HttpCode := resp.StatusCode }, respObj,
            [requestSent client method url body apiKey]⟩
      else if resp.StatusCode ≥ 500 ∨ resp.StatusCode < 200 then
        some ⟨some resp,
          some (Errorf "unexpected server error: status code was " resp.StatusCode),
          some { ({} : ErrorInfo) with HttpCode := resp.StatusCode }, respObj,
          [requestSent client method url body apiKey]⟩
      else
        match respObj with
        | none => some ⟨some resp, none, none, none, [requestSent client method url body apiKey]⟩
        | some obj =>
          match extractJSON env dR client.acceptGzip resp obj with
          | (obj, some err) =>
            some ⟨some resp, some err, none, some obj,
              [requestSent client method url body apiKey]⟩
          | (obj, none) =>
            some ⟨some resp, none, none, some obj,
              [requestSent client method url body apiKey]⟩ := by
  have hrq := requestSent_eq client method url body apiKey
  simp only [Client.doRequest, NewRequest, hnew, hc] at hrq ⊢
  rw [hrq, hdo]

/-- The three tiers of the classification, read off the outcome of `doRequest` for a response
that was received. -/
theorem doRequest_tiers {α : Type} (env : Env) (dE : JSONDecoder ErrorInfo)
    (dR : JSONDecoder α) (client : Client) (method url : String) (body : Option (List UInt8))
    (apiKey : String) (respObj : Option α) (h : HttpClient) (resp : Response)
    (hnew : env.NewRequestError method url = none) (hc : client.httpClient = some h)
    (hdo : env.Do h (requestSent client method url body apiKey) = Except.ok resp) :
    ∃ o, client.doRequest env dE dR method url body apiKey respObj = some o ∧
      o.resp = some resp ∧
      (resp.StatusCode ≥ 400 → o.err ≠ none) ∧
      (resp.StatusCode < 200 → o.err ≠ none) ∧
      (200 ≤ resp.StatusCode → resp.StatusCode < 400 → o.errInfo = none) := by
  rw [doRequest_received env dE dR client method url body apiKey respObj h resp hnew hc hdo]
  by_cases h4 : resp.StatusCode ≥ 400 ∧ resp.StatusCode < 500
  · rw [if_pos h4]
    rcases hx : extractJSON env dE client.acceptGzip resp ({} : ErrorInfo) with ⟨e, _ | err⟩
    · exact ⟨_, rfl, rfl, fun _ => by simp, fun _ => by simp, fun _ h2 => by omega⟩
    · exact ⟨_, rfl, rfl, fun _ => by simp, fun _ => by simp, fun _ h2 => by omega⟩
  · rw [if_neg h4]
    by_cases h5 : resp.StatusCode ≥ 500 ∨ resp.StatusCode < 200
    · rw [if_pos h5]
      exact ⟨_, rfl, rfl, fun _ => by simp, fun _ => by simp, fun h1 h2 => by omega⟩
    · rw [if_neg h5]
      cases respObj with
      | none => exact ⟨_, rfl, rfl, fun h1 => by omega, fun h1 => by omega, fun _ _ => rfl⟩
      | some obj =>
        dsimp only
        rcases hx : extractJSON env dR client.acceptGzip resp obj with ⟨obj2, _ | err⟩
        · exact ⟨_, rfl, rfl, fun h1 => by omega, fun h1 => by omega, fun _ _ => rfl⟩
        · exact ⟨_, rfl, rfl, fun h1 => by omega, fun h1 => by omega, fun _ _ => rfl⟩

/-- C5, as the code has it: for every response received by `doRequest`, the call is a success
(nil error and nil `ErrorInfo`) only if the status code is in 200..399, and every response whose
status code is outside 200..399 is reported with a non-nil error. -/
theorem doRequest_success_only_below_400 {α : Type} (env : Env) (dE : JSONDecoder ErrorInfo)
    (dR : JSONDecoder α) (client : Client) (method url : String) (body : Option (List UInt8))
    (apiKey : String) (respObj : Option α) (h : HttpClient) (resp : Response)
    (hnew : env.NewRequestError method url = none) (hc : client.httpClient = some h)
    (hdo : env.Do h (requestSent client method url body apiKey) = Except.ok resp) :
    ∃ o, client.doRequest env dE dR method url body apiKey respObj = some o ∧
      o.resp = some resp ∧
      ((o.err = none ∧ o.errInfo = none) → 200 ≤ resp.StatusCode ∧ resp.StatusCode ≤ 399) ∧
      (¬ (200 ≤ resp.StatusCode ∧ resp.StatusCode ≤ 399) → o.err ≠ none) := by
  obtain ⟨o, ho, hr, hge, hlt, _⟩ :=
    doRequest_tiers env dE dR client method url body apiKey respObj h resp hnew hc hdo
  refine ⟨o, ho, hr, ?_, ?_⟩
  · rintro ⟨he, _⟩
    by_contra hn
    rcases Int.lt_or_le resp.StatusCode 200 with h1 | h1
    · exact hlt h1 he
    · exact hge (by omega) he
  · intro hn
    rcases Int.lt_or_le resp.StatusCode 200 with h1 | h1
    · exact hlt h1
    · exact hge (by omega)

theorem doRequest_success_only_below_400_witness :
    ∃ o, exampleClient.doRequest (answering (Except.ok ⟨404, [], []⟩)) decodeNotFound
        (decodeEOF : JSONDecoder QueryResponse) "GET" "https://api.example/v1/p/entities/k/1"
        none "key" (some {}) = some o ∧
      o.resp = some ⟨404, [], []⟩ ∧
      ((o.err = none ∧ o.errInfo = none) → 200 ≤ (404 : Int) ∧ (404 : Int) ≤ 399) ∧
      (¬ (200 ≤ (404 : Int) ∧ (404 : Int) ≤ 399) → o.err ≠ none) :=
  doRequest_success_only_below_400 (answering (Except.ok ⟨404, [], []⟩)) decodeNotFound
    decodeEOF exampleClient "GET" "https://api.example/v1/p/entities/k/1" none "key" (some {})
    defaultClient ⟨404, [], []⟩ rfl rfl rfl

/-- C5, as stated, fails: a response with status 304 is outside 200..299, yet `doRequest`
returns a nil error and a nil `ErrorInfo` for it. -/
theorem doRequest_304_is_a_success :
    ∃ o, exampleClient.doRequest (answering (Except.ok ⟨304, [], []⟩)) decodeEOF
        (decodeEOF : JSONDecoder QueryResponse) "DELETE"
        "https://api.example/v1/p/entities/k/1" none "key" none = some o ∧
      o.resp = some ⟨304, [], []⟩ ∧ o.err = none ∧ o.errInfo = none ∧
      ¬ (200 ≤ (304 : Int) ∧ (304 : Int) ≤ 299) :=
  ⟨_, rfl, rfl, rfl, rfl, by decide⟩

/-- When `http.NewRequest` fails, `doRequest` returns its error alone and hands nothing to the
HTTP client. -/
theorem doRequest_request_failure {α : Type} (env : Env) (dE : JSONDecoder ErrorInfo)
    (dR : JSONDecoder α) (client : Client) (method url : String) (body : Option (List UInt8))
    (apiKey : String) (respObj : Option α) (err : GoError)
    (hnew : env.NewRequestError method url = some err) :
    client.doRequest env dE dR method url body apiKey respObj =
      some ⟨none, some err, none, respObj, []⟩ := by
  simp only [Client.doRequest, NewRequest, hnew]

/-- When the HTTP client fails, `doRequest` returns its error together with a pointer to an
`ErrorInfo` that still has its zero value. -/
theorem doRequest_transport_failure {α : Type} (env : Env) (dE : JSONDecoder ErrorInfo)
    (dR : JSONDecoder α) (client : Client) (method url : String) (body : Option (List UInt8))
    (apiKey : String) (respObj : Option α) (h : HttpClient) (err : GoError)
    (hnew : env.NewRequestError method url = none) (hc : client.httpClient = some h)
    (hdo : env.Do h (requestSent client method url body apiKey) = Except.error err) :
    client.doRequest env dE dR method url body apiKey respObj =
      some ⟨none, some err, some {}, respObj, [requestSent client method url body apiKey]⟩ := by
  have hrq := requestSent_eq client method url body apiKey
  simp only [Client.doRequest, NewRequest, hnew, hc] at hrq ⊢
  rw [hrq, hdo]

/-- The decoding step on a plain and on a compressed body. -/
theorem extractJSON_eq {β : Type} (env : Env) (Decode : JSONDecoder β) (resp : Response)
    (respObj : β) :
    extractJSON env Decode false resp respObj = Decode (Reader.body resp.Body) respObj ∧
    (env.gzipNewReader resp.Body = none →
      extractJSON env Decode true resp respObj = Decode (Reader.gzip resp.Body) respObj) ∧
    (∀ err, env.gzipNewReader resp.Body = some err →
      extractJSON env Decode true resp respObj = (respObj, some err)) := by
  refine ⟨by simp [extractJSON], ?_, ?_⟩
  · intro hg
    simp [extractJSON, hg]
  · intro err hg
    simp [extractJSON, hg]

/-- C6, as the code has it: for a response with status code `s` in 400..499 the body is read
through the decoding step of the client.  With the gzip flag off the JSON decoder reads the body
itself: if it decodes into `e`, `doRequest` returns the response, the error "status code was s"
and `e` with `HttpCode` set to `s`, whatever `httpCode` the body carried; if it fails,
`doRequest` returns the response, the decode error and a nil `ErrorInfo`.  With the gzip flag on
the body is first opened with `gzip.NewReader`: if that fails, `doRequest` returns the response,
the gzip error and a nil `ErrorInfo`, whatever JSON the body holds; if it succeeds, the same two
cases apply to the JSON decoder reading the decompressed stream.  In every case the caller's
result container is as it was. -/
theorem doRequest_client_error {α : Type} (env : Env) (dE : JSONDecoder ErrorInfo)
    (dR : JSONDecoder α) (client : Client) (method url : String) (body : Option (List UInt8))
    (apiKey : String) (respObj : Option α) (h : HttpClient) (resp : Response)
    (hnew : env.NewRequestError method url = none) (hc : client.httpClient = some h)
    (hdo : env.Do h (requestSent client method url body apiKey) = Except.ok resp)
    (hs : 400 ≤ resp.StatusCode ∧ resp.StatusCode ≤ 499) :
    (client.acceptGzip = false →
      (∀ e, dE (Reader.body resp.Body) ({} : ErrorInfo) = (e, none) →
        client.doRequest env dE dR method url body apiKey respObj =
          some ⟨some resp, some ⟨"status code was " ++ toString resp.StatusCode⟩,
            some { e with HttpCode := resp.StatusCode }, respObj,
            [requestSent client method url body apiKey]⟩) ∧
      (∀ e err, dE (Reader.body resp.Body) ({} : ErrorInfo) = (e, some err) →
        client.doRequest env dE dR method url body apiKey respObj =
          some ⟨some resp, some err, none, respObj,
            [requestSent client method url body apiKey]⟩)) ∧
    (client.acceptGzip = true →
      (∀ err, env.gzipNewReader resp.Body = some err →
        client.doRequest env dE dR method url body apiKey respObj =
          some ⟨some resp, some err, none, respObj,
            [requestSent client method url body apiKey]⟩) ∧
      (env.gzipNewReader resp.Body = none →
        (∀ e, dE (Reader.gzip resp.Body) ({} : ErrorInfo) = (e, none) →
          client.doRequest env dE dR method url body apiKey respObj =
            some ⟨some resp, some ⟨"status code was " ++ toString resp.StatusCode⟩,
              some { e with HttpCode := resp.StatusCode }, respObj,
              [requestSent client method url body apiKey]⟩) ∧
        (∀ e err, dE (Reader.gzip resp.Body) ({} : ErrorInfo) = (e, some err) →
          client.doRequest env dE dR method url body apiKey respObj =
            some ⟨some resp, some err, none, respObj,
              [requestSent client method url body apiKey]⟩))) := by
  have h4 : resp.StatusCode ≥ 400 ∧ resp.StatusCode < 500 := by omega
  have hx := extractJSON_eq env dE resp ({} : ErrorInfo)
  rw [doRequest_received env dE dR client method url body apiKey respObj h resp hnew hc hdo,
    if_pos h4]
  constructor
  · intro hg
    rw [hg, hx.1]
    constructor
    · intro e he
      rw [he]
      rfl
    · intro e err he
      rw [he]
  · intro hg
    rw [hg]
    constructor
    · intro err hz
      rw [hx.2.2 err hz]
    · intro hz
      rw [hx.2.1 hz]
      constructor
      · intro e he
        rw [he]
        rfl
      · intro e err he
        rw [he]

theorem doRequest_client_error_witness :
    exampleClient.doRequest (answering (Except.ok ⟨404, [], notFoundBody⟩)) decodeNotFound
        (decodeEOF : JSONDecoder QueryResponse) "GET" "https://api.example/v1/p/entities/k/1"
        none "key" (some {}) =
      some ⟨some ⟨404, [], notFoundBody⟩, some ⟨"status code was 404"⟩,
        some { Message := "not found", HttpCode := 404 }, some {},
        [requestSent exampleClient "GET" "https://api.example/v1/p/entities/k/1" none "key"]⟩ ∧
    gzipClient.doRequest (checkingGzip (Except.ok ⟨404, [], notFoundBodyGzip⟩)) decodeNotFound
        (decodeEOF : JSONDecoder QueryResponse) "GET" "https://api.example/v1/p/entities/k/1"
        none "key" (some {}) =
      some ⟨some ⟨404, [], notFoundBodyGzip⟩, some ⟨"status code was 404"⟩,
        some { Message := "not found", HttpCode := 404 }, some {},
        [requestSent gzipClient "GET" "https://api.example/v1/p/entities/k/1" none "key"]⟩ :=
  ⟨((doRequest_client_error (answering (Except.ok ⟨404, [], notFoundBody⟩)) decodeNotFound
    (decodeEOF : JSONDecoder QueryResponse) exampleClient "GET"
    "https://api.example/v1/p/entities/k/1" none "key" (some {})
    defaultClient ⟨404, [], notFoundBody⟩ rfl rfl rfl (by decide)).1 rfl).1
    { Message := "not found", HttpCode := 7 } rfl,
   (((doRequest_client_error (checkingGzip (Except.ok ⟨404, [], notFoundBodyGzip⟩)) decodeNotFound
    (decodeEOF : JSONDecoder QueryResponse) gzipClient "GET"
    "https://api.example/v1/p/entities/k/1" none "key" (some {})
    defaultClient ⟨404, [], notFoundBodyGzip⟩ rfl rfl rfl (by decide)).2 rfl).2 rfl).1
    { Message := "not found", HttpCode := 7 } rfl⟩

/-- C6, as stated, fails: the client asks for gzip and the 404 response carries a plain JSON
body.  The body decodes as JSON into an `ErrorInfo`, yet `doRequest` returns the error of
`gzip.NewReader` and a nil `ErrorInfo`. -/
theorem doRequest_plain_body_under_gzip :
    ∃ o, gzipClient.doRequest (checkingGzip (Except.ok ⟨404, [], notFoundBody⟩)) decodeNotFound
        (decodeEOF : JSONDecoder QueryResponse) "GET" "https://api.example/v1/p/entities/k/1"
        none "key" (some {}) = some o ∧
      decodeNotFound (Reader.body notFoundBody) {} =
        ({ Message := "not found", HttpCode := 7 }, none) ∧
      o.resp = some ⟨404, [], notFoundBody⟩ ∧
      o.err = some ⟨"gzip: invalid header"⟩ ∧ o.errInfo.isNone = true :=
  ⟨_, rfl, rfl, rfl, rfl, rfl⟩

/-- C7: for a response with status code `s ≥ 500` or `s < 200`, whatever its body and whatever
the gzip flag of the client, `doRequest` returns the response, the error "unexpected server
error: status code was s" and an `ErrorInfo` whose `HttpCode` is `s` and whose other fields have
their zero values; the caller's result container is as it was, and the outcome is the same
under every JSON decoder and every gzip reader: the body is not decoded. -/
theorem doRequest_unexpected_status {α : Type} (env : Env) (dE : JSONDecoder ErrorInfo)
    (dR : JSONDecoder α) (client : Client) (method url : String) (body : Option (List UInt8))
    (apiKey : String) (respObj : Option α) (h : HttpClient) (resp : Response)
    (hnew : env.NewRequestError method url = none) (hc : client.httpClient = some h)
    (hdo : env.Do h (requestSent client method url body apiKey) = Except.ok resp)
    (hs : resp.StatusCode ≥ 500 ∨ resp.StatusCode < 200) :
    client.doRequest env dE dR method url body apiKey respObj =
      some ⟨some resp,
        some ⟨"unexpected server error: status code was " ++ toString resp.StatusCode⟩,
        some ⟨"", GoAny.nil, "", resp.StatusCode, ""⟩, respObj,
        [requestSent client method url body apiKey]⟩ ∧
    ∀ (gz : List UInt8 → Option GoError) (dE2 : JSONDecoder ErrorInfo) (dR2 : JSONDecoder α),
      client.doRequest ⟨env.NewRequestError, env.Do, gz⟩ dE2 dR2 method url body apiKey respObj =
        client.doRequest env dE dR method url body apiKey respObj := by
  have h4 : ¬ (resp.StatusCode ≥ 400 ∧ resp.StatusCode < 500) := by omega
  have key : ∀ (env2 : Env) (d1 : JSONDecoder ErrorInfo) (d2 : JSONDecoder α),
      env2.NewRequestError method url = none →
      env2.Do h (requestSent client method url body apiKey) = Except.ok resp →
      client.doRequest env2 d1 d2 method url body apiKey respObj =
        some ⟨some resp,
          some ⟨"unexpected server error: status code was " ++ toString resp.StatusCode⟩,
          some ⟨"", GoAny.nil, "", resp.StatusCode, ""⟩, respObj,
          [requestSent client method url body apiKey]⟩ := by
    intro env2 d1 d2 hn hd
    rw [doRequest_received env2 d1 d2 client method url body apiKey respObj h resp hn hc hd,
      if_neg h4, if_pos hs]
    rfl
  refine ⟨key env dE dR hnew hdo, ?_⟩
  intro gz dE2 dR2
  rw [key env dE dR hnew hdo, key ⟨env.NewRequestError, env.Do, gz⟩ dE2 dR2 hnew hdo]

theorem doRequest_unexpected_status_witness :
    exampleClient.doRequest (answering (Except.ok ⟨500, [], [123, 125]⟩)) decodeNotFound
        (decodeEmptyObject : JSONDecoder QueryResponse) "POST"
        "https://api.example/v1/p/entities/k/query" (some [123, 125]) "key" (some {}) =
      some ⟨some ⟨500, [], [123, 125]⟩,
        some ⟨"unexpected server error: status code was 500"⟩,
        some ⟨"", GoAny.nil, "", 500, ""⟩, some {},
        [requestSent exampleClient "POST" "https://api.example/v1/p/entities/k/query"
          (some [123, 125]) "key"]⟩ :=
  (doRequest_unexpected_status (answering (Except.ok ⟨500, [], [123, 125]⟩)) decodeNotFound
    (decodeEmptyObject : JSONDecoder QueryResponse) exampleClient "POST"
    "https://api.example/v1/p/entities/k/query"
    (some [123, 125]) "key" (some {}) defaultClient ⟨500, [], [123, 125]⟩ rfl rfl rfl
    (Or.inl (by decide))).1

/-- C8, as the code has it by design: when `http.NewRequest` fails no `ErrorInfo` is returned;
when a response was received, an `ErrorInfo` is returned (non-nil) only when its status code is
at least 400 or below 200, and none is returned for a status code in 200..399.  (Failures of the
HTTP client itself are not covered here.) -/
theorem errInfo_only_for_error_status {α : Type} (env : Env) (dE : JSONDecoder ErrorInfo)
    (dR : JSONDecoder α) (client : Client) (method url : String) (body : Option (List UInt8))
    (apiKey : String) (respObj : Option α) :
    (∀ err, env.NewRequestError method url = some err →
      ∃ o, client.doRequest env dE dR method url body apiKey respObj = some o ∧
        o.resp = none ∧ o.errInfo = none) ∧
    (∀ h resp, env.NewRequestError method url = none → client.httpClient = some h →
      env.Do h (requestSent client method url body apiKey) = Except.ok resp →
      ∃ o, client.doRequest env dE dR method url body apiKey respObj = some o ∧
        o.resp = some resp ∧
        (o.errInfo ≠ none → resp.StatusCode ≥ 400 ∨ resp.StatusCode < 200) ∧
        (200 ≤ resp.StatusCode → resp.StatusCode ≤ 399 → o.errInfo = none)) := by
  constructor
  · intro err hnew
    rw [doRequest_request_failure env dE dR client method url body apiKey respObj err hnew]
    exact ⟨_, rfl, rfl, rfl⟩
  · intro h resp hnew hc hdo
    obtain ⟨o, ho, hr, _, _, hmid⟩ :=
      doRequest_tiers env dE dR client method url body apiKey respObj h resp hnew hc hdo
    refine ⟨o, ho, hr, ?_, fun h1 h2 => hmid h1 (by omega)⟩
    intro hne
    by_contra hn
    exact hne (hmid (by omega) (by omega))

theorem errInfo_only_for_error_status_witness :
    ∃ o, exampleClient.doRequest (answering (Except.ok ⟨204, [], []⟩)) decodeNotFound
        (decodeEOF : JSONDecoder QueryResponse) "DELETE"
        "https://api.example/v1/p/entities/k/1" none "key" none = some o ∧
      o.resp = some ⟨204, [], []⟩ ∧
      (o.errInfo ≠ none → (204 : Int) ≥ 400 ∨ (204 : Int) < 200) ∧
      (200 ≤ (204 : Int) → (204 : Int) ≤ 399 → o.errInfo = none) :=
  (errInfo_only_for_error_status (answering (Except.ok ⟨204, [], []⟩)) decodeNotFound
    (decodeEOF : JSONDecoder QueryResponse) exampleClient "DELETE"
    "https://api.example/v1/p/entities/k/1" none "key" none).2
    defaultClient ⟨204, [], []⟩ rfl rfl rfl

/-- C8, as stated, fails: a response with status 600 is neither 4xx nor 5xx, yet `doRequest`
returns a non-nil `ErrorInfo` for it. -/
theorem doRequest_600_has_errInfo :
    ∃ o, exampleClient.doRequest (answering (Except.ok ⟨600, [], []⟩)) decodeEOF
        (decodeEOF : JSONDecoder QueryResponse) "DELETE"
        "https://api.example/v1/p/entities/k/1" none "key" none = some o ∧
      o.resp = some ⟨600, [], []⟩ ∧ o.errInfo ≠ none ∧
      ¬ (400 ≤ (600 : Int) ∧ (600 : Int) ≤ 599) :=
  ⟨_, rfl, rfl, by simp, by decide⟩

/-! ## Construction -/

theorem dropWhile_head_not {α : Type} (p : α → Bool) (l : List α) (c : α)
    (h : (l.dropWhile p).head? = some c) : p c = false := by
  have hd := List.head?_dropWhile_not p l
  rw [h] at hd
  exact hd

/-- Dropping from both ends what satisfies `p` splits a list into a prefix and a suffix that
satisfy `p` throughout and a middle part that neither starts nor ends with such an element. -/
theorem trim_decomposition {α : Type} (p : α → Bool) (l : List α) :
    ∃ pre post, l = pre ++ ((l.dropWhile p).reverse.dropWhile p).reverse ++ post ∧
      (∀ c ∈ pre, p c = true) ∧ (∀ c ∈ post, p c = true) ∧
      (∀ c, (((l.dropWhile p).reverse.dropWhile p).reverse).head? = some c → p c = false) ∧
      (∀ c, (((l.dropWhile p).reverse.dropWhile p).reverse).getLast? = some c →
        p c = false) := by
  have hm : l.dropWhile p =
      ((l.dropWhile p).reverse.dropWhile p).reverse ++
        ((l.dropWhile p).reverse.takeWhile p).reverse := by
    rw [← List.reverse_append, List.takeWhile_append_dropWhile, List.reverse_reverse]
  refine ⟨l.takeWhile p, ((l.dropWhile p).reverse.takeWhile p).reverse, ?_, ?_, ?_, ?_, ?_⟩
  · rw [List.append_assoc, ← hm, List.takeWhile_append_dropWhile]
  · intro c hc
    exact List.mem_takeWhile_imp hc
  · intro c hc
    exact List.mem_takeWhile_imp (List.mem_reverse.mp hc)
  · intro c hc
    apply dropWhile_head_not p l c
    rw [hm]
    cases hr : ((l.dropWhile p).reverse.dropWhile p).reverse with
    | nil => rw [hr] at hc; simp at hc
    | cons a t => rw [hr] at hc; simpa using hc
  · intro c hc
    rw [List.getLast?_reverse] at hc
    exact dropWhile_head_not p _ c hc

/-- C9, as the code has it: for every base URL and API key, `NewClient` without options returns
a client (never nil) whose base URL is the input without its leading and trailing white space,
whose API key is the input, whose gzip flag is false and whose HTTP client is the default one;
`WithAcceptGzip()` changes only the gzip flag, to true; `WithHTTPClient(h)` with a non-nil `h`
changes only the HTTP client, to `h`; `WithHTTPClient(nil)` changes nothing: the client gets
the default HTTP client. -/
theorem NewClient_spec (baseURL apiKey : String) :
    NewClient baseURL apiKey [] =
      some ⟨TrimSpace baseURL, apiKey, some defaultClient, false⟩ ∧
    NewClient baseURL apiKey [WithAcceptGzip] =
      some ⟨TrimSpace baseURL, apiKey, some defaultClient, true⟩ ∧
    (∀ h : HttpClient, NewClient baseURL apiKey [WithHTTPClient (some h)] =
      some ⟨TrimSpace baseURL, apiKey, some h, false⟩) ∧
    NewClient baseURL apiKey [WithHTTPClient none] =
      some ⟨TrimSpace baseURL, apiKey, some defaultClient, false⟩ ∧
    (∃ pre post : List Char, baseURL.data = pre ++ (TrimSpace baseURL).data ++ post ∧
      (∀ c ∈ pre, IsSpace c = true) ∧ (∀ c ∈ post, IsSpace c = true) ∧
      (∀ c, (TrimSpace baseURL).data.head? = some c → IsSpace c = false) ∧
      (∀ c, (TrimSpace baseURL).data.getLast? = some c → IsSpace c = false)) := by
  refine ⟨rfl, rfl, fun h => rfl, rfl, ?_⟩
  exact trim_decomposition IsSpace baseURL.data

theorem NewClient_spec_witness :
    NewClient " https://someurl.com " "abcd" [] =
      some ⟨"https://someurl.com", "abcd", some defaultClient, false⟩ ∧
    NewClient " https://someurl.com " "abcd" [WithHTTPClient (some ⟨second, none⟩)] =
      some ⟨"https://someurl.com", "abcd", some ⟨second, none⟩, false⟩ :=
  ⟨(NewClient_spec " https://someurl.com " "abcd").1,
    (NewClient_spec " https://someurl.com " "abcd").2.2.1 ⟨second, none⟩⟩

/-- C9, as stated, fails: with `WithHTTPClient(nil)` the HTTP client of the new client is not
the nil that was passed but the default one, as if no option had been given. -/
theorem NewClient_WithHTTPClient_nil :
    ∃ c, NewClient "" "" [WithHTTPClient none] = some c ∧ c.httpClient ≠ none ∧
      c.httpClient = some defaultClient ∧
      NewClient "" "" [WithHTTPClient none] = NewClient "" "" [] :=
  ⟨⟨"", "", some defaultClient, false⟩, rfl, Option.some_ne_none defaultClient, rfl, rfl⟩

/-! ## Query -/

theorem query_url_eq (B projectPath kindPath : String) :
    B ++ "/" ++ apiVersion ++ "/" ++ projectPath ++ "/entities/" ++ kindPath ++ "/query" =
      B ++ "/v1/" ++ projectPath ++ "/entities/" ++ kindPath ++ "/query" := by
  have h : B ++ "/" ++ apiVersion ++ "/" = B ++ "/v1/" := by
    rw [String.append_assoc, String.append_assoc]
    rfl
  rw [h]

theorem requestHeader_get_token (acceptGzip : Bool) (apiKey : String) :
    Header.Get (requestHeader acceptGzip apiKey) "ManyRowsAuthToken" = apiKey := by
  simp [Header.Get, requestHeader, List.find?]

/-- C10, as the code has it: let `(B, K)` be the base URL and API key that `getOptions` resolves
from the per-call options of `req` (the per-call value when non-empty, the client's otherwise).
If `json.Marshal(req)` fails, or `http.NewRequest` rejects the URL, `Query` returns that error
and issues no request.  Otherwise, for a client with an HTTP client, `Query` issues exactly one
request: a POST whose URL is `B + "/v1/" + projectPath + "/entities/" + kindPath + "/query"`,
whose `ManyRowsAuthToken` header is `K` and whose body is the marshalled request. -/
theorem Query_request (env : Env) (dE : JSONDecoder ErrorInfo) (dR : JSONDecoder QueryResponse)
    (Marshal : QueryRequest → Except GoError (List UInt8)) (client : Client)
    (projectPath kindPath : String) (req : QueryRequest) :
    ((client.getOptions req.toClientOptions).1.baseURL =
        (if req.toClientOptions.baseURL ≠ "" then req.toClientOptions.baseURL
          else client.baseURL) ∧
      (client.getOptions req.toClientOptions).1.apiKey =
        (if req.toClientOptions.apiKey ≠ "" then req.toClientOptions.apiKey
          else client.apiKey)) ∧
    (∀ err, Marshal req = Except.error err →
      client.Query env dE dR Marshal projectPath kindPath req = some ⟨none, some err, []⟩) ∧
    (∀ payload err, Marshal req = Except.ok payload →
      env.NewRequestError "POST" ((client.getOptions req.toClientOptions).1.baseURL ++ "/v1/" ++
        projectPath ++ "/entities/" ++ kindPath ++ "/query") = some err →
      client.Query env dE dR Marshal projectPath kindPath req = some ⟨none, some err, []⟩) ∧
    (∀ payload h, Marshal req = Except.ok payload →
      env.NewRequestError "POST" ((client.getOptions req.toClientOptions).1.baseURL ++ "/v1/" ++
        projectPath ++ "/entities/" ++ kindPath ++ "/query") = none →
      client.httpClient = some h →
      ∃ q rq, client.Query env dE dR Marshal projectPath kindPath req = some q ∧
        q.sent = [rq] ∧ rq.Method = "POST" ∧
        rq.URL = (client.getOptions req.toClientOptions).1.baseURL ++ "/v1/" ++
          projectPath ++ "/entities/" ++ kindPath ++ "/query" ∧
        rq.Header.Get "ManyRowsAuthToken" = (client.getOptions req.toClientOptions).1.apiKey ∧
        rq.Body = some payload) := by
  refine ⟨⟨rfl, rfl⟩, ?_, ?_, ?_⟩
  · intro err hm
    simp only [Client.Query, hm]
  · intro payload err hm hnew
    simp only [Client.Query, hm, query_url_eq]
    rw [doRequest_request_failure env dE dR client "POST" _ (some payload) _ _ err hnew]
  · intro payload h hm hnew hc
    simp only [Client.Query, hm, query_url_eq]
    generalize hu : (client.getOptions req.toClientOptions).1.baseURL ++ "/v1/" ++
      projectPath ++ "/entities/" ++ kindPath ++ "/query" = u at hnew ⊢
    generalize hk : (client.getOptions req.toClientOptions).1.apiKey = k
    have hsent : ∀ o : Outcome QueryResponse,
        client.doRequest env dE dR "POST" u (some payload) k (some {}) = some o →
        o.sent = [requestSent client "POST" u (some payload) k] := by
      intro o ho
      cases hdo : env.Do h (requestSent client "POST" u (some payload) k) with
      | error e =>
        rw [doRequest_transport_failure env dE dR client "POST" u (some payload) k _ h e
          hnew hc hdo] at ho
        cases ho
        rfl
      | ok resp =>
        rw [doRequest_received env dE dR client "POST" u (some payload) k _ h resp
          hnew hc hdo] at ho
        split at ho
        · split at ho <;> (cases ho; rfl)
        · split at ho
          · cases ho
            rfl
          · dsimp only at ho
            split at ho <;> (cases ho; rfl)
    have hsome : ∃ o, client.doRequest env dE dR "POST" u (some payload) k (some {}) = some o := by
      cases hdo : env.Do h (requestSent client "POST" u (some payload) k) with
      | error e =>
        exact ⟨_, doRequest_transport_failure env dE dR client "POST" u (some payload) k _ h e
          hnew hc hdo⟩
      | ok resp =>
        obtain ⟨o, ho, _⟩ := doRequest_tiers env dE dR client "POST" u (some payload) k
          (some {}) h resp hnew hc hdo
        exact ⟨o, ho⟩
    obtain ⟨o, ho⟩ := hsome
    have hs := hsent o ho
    rw [ho]
    dsimp only
    cases he : o.err with
    | none =>
      exact ⟨_, requestSent client "POST" u (some payload) k, rfl, hs, rfl, rfl,
        requestHeader_get_token _ _, rfl⟩
    | some e =>
      exact ⟨_, requestSent client "POST" u (some payload) k, rfl, hs, rfl, rfl,
        requestHeader_get_token _ _, rfl⟩

theorem Query_request_witness :
    ∃ q rq, exampleClient.Query (answering (Except.ok ⟨200, [], [123, 125]⟩)) decodeEOF
        decodeEmptyObject marshalForExamples "proj" "kind"
        { toClientOptions := ⟨"https://other.example", ""⟩ } = some q ∧
      q.sent = [rq] ∧ rq.Method = "POST" ∧
      rq.URL = "https://other.example/v1/proj/entities/kind/query" ∧
      rq.Header.Get "ManyRowsAuthToken" = "key" ∧
      rq.Body = some [123, 125] :=
  (Query_request (answering (Except.ok ⟨200, [], [123, 125]⟩)) decodeEOF decodeEmptyObject
    marshalForExamples exampleClient "proj" "kind"
    { toClientOptions := ⟨"https://other.example", ""⟩ }).2.2.2 [123, 125] defaultClient
    rfl rfl rfl

/-- C10, as stated, fails: for a query whose filter value is a `float64` NaN, which
`json.Marshal` rejects, `Query` returns the marshalling error and issues no request at all. -/
theorem Query_unmarshallable_sends_nothing :
    ∃ q, exampleClient.Query (answering (Except.ok ⟨200, [], [123, 125]⟩)) decodeEOF
        decodeEmptyObject marshalForExamples "proj" "kind"
        { Filters := [⟨"price", GoAny.float64 0x7FF8000000000000⟩] } = some q ∧
      q.sent = [] ∧ q.res.isNone = true ∧ q.err = some ⟨"json: unsupported value"⟩ :=
  ⟨_, rfl, rfl, rfl, rfl⟩

end manyrowsclient
